import Mathlib

/-!
# A verification of the `argmap` command-line parser

A shallow embedding, in Lean 4, of the Go package `argmap`
(command-line argument declaration and parsing), together with proofs
and refutations of its specified properties.

The embedding follows the repository's source files:

* `arguments.go` — the argument variants (`StringFlag`, `ListFlag`,
  `BoolFlag`, `PositionalArg`, `HelpFlag`, and `Command`) with their
  `GetID`, `Represent` and `getOrder` methods;
* `parser.go` — the `ArgsParser`, its registration entry points
  (`NewStringFlag`, `NewBoolFlag`, `NewPositionalArg`), the shared
  `checkIdentifiers` validator, `SortArgsList`, and `Parse`;
* `command.go` — the `Command` registration entry points
  (`Command.NewStringFlag`, `Command.NewBoolFlag`,
  `Command.NewPositionalArg`, `Command.NewSubcommand`);
* `map.go` — the typed accessor `GetBool`.

Go `int` is embedded as `Int`, Go strings as `String`, Go slices as
`List`/`Array`, and the `map[string]interface{}` result as an
association list over an explicit `Value` sum (Go's map is unordered;
the association list's order is an artifact of the embedding, and all
map-shaped statements below go through `List.lookup`, never through
the artifact order, except where both sides of an equality are built
by the very same insertions).

Effects of the Go code (printing to the console, `os.Exit`, panics)
are embedded as explicit terminal constructors of `ParseOutcome`.
-/

namespace Argmap

/-- `StringFlag` argument (arguments.go).  `NArgs` is a Go `int`, so it
is embedded as `Int`: the registration entry point normalizes
non-positive values, but the raw struct may hold any integer. -/
structure StringFlag where
  Name : String := ""
  Short : String := ""
  NArgs : Int := 0
  Vars : List String := []
  Help : String := ""

/-- `ListFlag` argument (arguments.go). -/
structure ListFlag where
  Name : String := ""
  Short : String := ""
  Var : String := ""
  Help : String := ""

/-- `BoolFlag` argument (arguments.go). -/
structure BoolFlag where
  Name : String := ""
  Short : String := ""
  Help : String := ""

/-- `PositionalArg` argument (arguments.go). -/
structure PositionalArg where
  Name : String := ""
  Help : String := ""
  Required : Bool := false

/-- The closed set of argument variants implementing the Go `Argument`
interface.  A `Command` (command.go) is an argument carrying its own
nested collection, so it appears here as a constructor holding its
`name`, `Help` and `argsList` fields inline (Lean structures cannot be
mutually recursive with inductives). -/
inductive Argument where
  | str : StringFlag → Argument
  | list : ListFlag → Argument
  | bool : BoolFlag → Argument
  | pos : PositionalArg → Argument
  | help : String → Argument
  | cmd : String → String → List Argument → Argument

/-- The sorting-order constants of arguments.go. -/
def orderPositionalReq : Nat := 1

def orderPositionalOpt : Nat := 2

def orderStringFlag : Nat := 3

def orderListFlag : Nat := 4

def orderBoolFlag : Nat := 5

def orderHelpFlag : Nat := 9

def orderCommand : Nat := 10

/-- `getOrder` (arguments.go, command.go): the sorting rank of each
variant. -/
def Argument.getOrder : Argument → Nat
  | .pos a => if a.Required then orderPositionalReq else orderPositionalOpt
  | .str _ => orderStringFlag
  | .list _ => orderListFlag
  | .bool _ => orderBoolFlag
  | .help _ => orderHelpFlag
  | .cmd _ _ _ => orderCommand

/-- `GetID` (arguments.go, command.go): the key under which a parsed
value is stored.  For flags: the `Name` if present, else the `Short`;
the help flag's id is the literal `"help"`; a command's id is its
name. -/
def Argument.GetID : Argument → String
  | .str f => if f.Name ≠ "" then f.Name else f.Short
  | .list f => if f.Name ≠ "" then f.Name else f.Short
  | .bool f => if f.Name ≠ "" then f.Name else f.Short
  | .pos a => a.Name
  | .help _ => "help"
  | .cmd n _ _ => n

/-- `Represent` (arguments.go, command.go): the input tokens that refer
to the argument.  A flag with both names yields `{-short, --name}` in
that order; positionals yield none; the help flag yields
`{-h, --help}`; a command yields its bare name. -/
def Argument.Represent : Argument → List String
  | .str f =>
      if f.Name ≠ "" ∧ f.Short ≠ "" then ["-" ++ f.Short, "--" ++ f.Name]
      else if f.Name ≠ "" then ["--" ++ f.Name]
      else ["-" ++ f.Short]
  | .list f =>
      if f.Name ≠ "" ∧ f.Short ≠ "" then ["-" ++ f.Short, "--" ++ f.Name]
      else if f.Name ≠ "" then ["--" ++ f.Name]
      else ["-" ++ f.Short]
  | .bool f =>
      if f.Name ≠ "" ∧ f.Short ≠ "" then ["-" ++ f.Short, "--" ++ f.Name]
      else if f.Name ≠ "" then ["--" ++ f.Name]
      else ["-" ++ f.Short]
  | .pos _ => []
  | .help _ => ["-h", "--help"]
  | .cmd n _ _ => [n]

/-- `contains` (parser.go): linear membership scan over a string
slice. -/
def contains : List String → String → Bool
  | [], _ => false
  | v :: rest, val => if v = val then true else contains rest val

/-- `checkIdentifiers` (parser.go): walks the existing collection; for
each existing argument it first rejects an equal id, then rejects the
first representation of the candidate that the existing argument
already uses.  Pure: it only reads the collection.  `none` means
success. -/
def checkIdentifiers : List Argument → Argument → Option String
  | [], _ => none
  | a :: rest, b =>
      if a.GetID = b.GetID then
        some ("Error: identifier '" ++ b.GetID ++ "' already exists")
      else
        match b.Represent.find? (fun r => contains a.Represent r) with
        | some r => some ("Error: representation '" ++ r ++ "' already exists")
        | none => checkIdentifiers rest b

/-- The comparison closure passed to `sort.Slice` by `SortArgsList`
(parser.go, command.go): strictly smaller `getOrder`. -/
def lessOrder (x y : Argument) : Bool := decide (x.getOrder < y.getOrder)

/-- One guarded swap of Go's gap-6 ShellSort pass: positions `i` and
`i - 6` are exchanged when the later element compares strictly
smaller. -/
def shellStep (less : Argument → Argument → Bool) (arr : Array Argument)
    (i : Nat) (h : i < arr.size) : Array Argument :=
  if less (arr.get ⟨i, h⟩) (arr.get ⟨i - 6, Nat.lt_of_le_of_lt (Nat.sub_le i 6) h⟩) then
    arr.swap ⟨i, h⟩ ⟨i - 6, Nat.lt_of_le_of_lt (Nat.sub_le i 6) h⟩
  else arr

/-- A guarded swap leaves the array's length unchanged. -/
theorem shellStep_size (less : Argument → Argument → Bool) (arr : Array Argument)
    (i : Nat) (h : i < arr.size) : (shellStep less arr i h).size = arr.size := by
  unfold shellStep
  split
  · exact Array.size_swap ..
  · rfl

/-- The iterations of the `for i := a + 6; i < b; i++` ShellSort pass
with gap 6 that Go's `sort.Slice` (`quickSort_func` in sort.go, Go ≤
1.18) runs on every sub-slice of at most 12 elements, here over the
whole array (`a = 0`, `b = arr.size`).  The loop is embedded with its
iteration count made explicit (the guard `i < arr.size` is still
checked on every iteration, so a count of `arr.size - 6` runs the loop
to completion exactly as Go does: swaps preserve the length). -/
def shellIter (less : Argument → Argument → Bool) :
    Nat → Array Argument → Nat → Array Argument
  | 0, arr, _ => arr
  | c + 1, arr, i =>
      if h : i < arr.size then shellIter less c (shellStep less arr i h) (i + 1)
      else arr

/-- The complete gap-6 ShellSort pass, from `i = 6`. -/
def shellPass (less : Argument → Argument → Bool) (arr : Array Argument) :
    Array Argument :=
  shellIter less (arr.size - 6) arr 6

/-- The inner loop of Go's `insertionSort_func`: sift the element at
`j` down while `j > 0` and it compares strictly smaller than its left
neighbour. -/
def insInner (less : Argument → Argument → Bool) :
    Array Argument → Nat → Array Argument
  | arr, 0 => arr
  | arr, j + 1 =>
      if h : j + 1 < arr.size then
        if less (arr.get ⟨j + 1, h⟩) (arr.get ⟨j, Nat.lt_of_succ_lt h⟩) then
          insInner less (arr.swap ⟨j + 1, h⟩ ⟨j, Nat.lt_of_succ_lt h⟩) j
        else arr
      else arr

/-- The sift-down loop leaves the array's length unchanged. -/
theorem insInner_size (less : Argument → Argument → Bool) :
    ∀ (j : Nat) (arr : Array Argument), (insInner less arr j).size = arr.size := by
  intro j
  induction j with
  | zero => intro arr; rfl
  | succ j ih =>
    intro arr
    rw [insInner]
    split
    · split
      · rw [ih]
        exact Array.size_swap ..
      · rfl
    · rfl

/-- The iterations of the outer loop of Go's `insertionSort_func`,
`for i := a + 1; i < b; i++`, again with the iteration count explicit
(`insInner` preserves the length — `insInner_size` — so a count of
`arr.size - 1` runs the loop to completion exactly as Go does). -/
def insIter (less : Argument → Argument → Bool) :
    Nat → Array Argument → Nat → Array Argument
  | 0, arr, _ => arr
  | c + 1, arr, i =>
      if i < arr.size then insIter less c (insInner less arr i) (i + 1)
      else arr

/-- Go's `insertionSort_func` over the whole array. -/
def insertionSortGo (less : Argument → Argument → Bool) (arr : Array Argument) :
    Array Argument :=
  insIter less (arr.size - 1) arr 1

/-- `sort.Slice` as `SortArgsList` invokes it, for slices of at most 12
elements: Go's `quickSort_func` (sort.go, Go ≤ 1.18) falls straight
through its `for b-a > 12` partitioning loop and, the slice having more
than one element, runs the gap-6 ShellSort pass followed by an
insertion sort.  Go documents `sort.Slice` as not guaranteed to be
stable.  The partitioning branch taken for longer slices is not
modelled: every argument collection in this development has at most
12 entries, and Go ≥ 1.19 replaces this routine by `pdqsort` (which
runs a plain insertion sort — no gap-6 pass — on such short slices). -/
def sortSliceSmall (less : Argument → Argument → Bool) (arr : Array Argument) :
    Array Argument :=
  insertionSortGo less (shellPass less arr)

/-- `SortArgsList` (parser.go, command.go): sorts the argument list by
`getOrder` through `sort.Slice`, embedded here by its Go ≤ 1.18
small-slice code path (see `sortSliceSmall`). -/
def SortArgsList (l : List Argument) : List Argument :=
  (sortSliceSmall lessOrder l.toArray).toList

/-- The shapes a value of the Go result map (`map[string]interface{}`)
can take in this package: a positional's string, a string flag's value
slice, a bool flag's `true`, or a command's nested map. -/
inductive Value where
  | vstr : String → Value
  | vstrs : List String → Value
  | vbool : Bool → Value
  | vmap : List (String × Value) → Value

/-- The result mapping, embedded as an association list with
replace-on-existing-key insertion (Go map assignment). -/
def AMap : Type := List (String × Value)

/-- Go map assignment `m[k] = v`: replace the binding if the key
exists, append otherwise. -/
def mapInsert (m : AMap) (k : String) (v : Value) : AMap :=
  match m with
  | [] => [(k, v)]
  | (k0, v0) :: rest => if k0 = k then (k0, v) :: rest else (k0, v0) :: mapInsert rest k v

/-- Go map read `m[k]` for the association-list embedding. -/
def mapFind (m : AMap) (k : String) : Option Value :=
  match m with
  | [] => none
  | (k0, v0) :: rest => if k0 = k then some v0 else mapFind rest k

/-- `GetBool` (map.go): looks the key up and type-switches on `bool`;
any miss — absent key or a non-boolean value — falls through to
`false`.  Its Go signature returns only `bool`, never an error. -/
def GetBool (aMap : AMap) (key : String) : Bool :=
  match mapFind aMap key with
  | some (.vbool b) => b
  | some _ => false
  | none => false

/-- `ArgsParser` (parser.go).  The `helpGen` function field only feeds
the excluded help renderer and carries no parsing semantics, so it is
not embedded. -/
structure ArgsParser where
  Name : String
  Description : String
  argsList : List Argument

/-- `NewArgsParser` (parser.go): a fresh parser whose collection holds
the one implicit `HelpFlag`. -/
def NewArgsParser (name descr : String) : ArgsParser :=
  { Name := name, Description := descr,
    argsList := [.help "shows help message and exits"] }

/-- The tail of `NewStringFlag` shared by its two fall-through paths:
`checkIdentifiers`, then append on success.  Returns the parser state
after the call together with the returned error. -/
def insertStringFlag (p : ArgsParser) (f : StringFlag) : ArgsParser × Option String :=
  match checkIdentifiers p.argsList (.str f) with
  | some e => (p, some e)
  | none => ({ p with argsList := p.argsList ++ [.str f] }, none)

/-- The `if f.NArgs < 1 { f.NArgs = 1 }` normalization at the top of
`NewStringFlag` (parser.go, command.go), as the value of the mutated
local `f`. -/
def normalizeNArgs (f : StringFlag) : StringFlag :=
  if f.NArgs < 1 then { f with NArgs := 1 } else f

/-- `NewStringFlag` (parser.go): rejects a flag with neither name;
normalizes `NArgs < 1` to `1`; pads too few `Vars` with the
placeholder `"value"` up to `NArgs`, rejects too many with the
too-many-value-names error; then `checkIdentifiers` and append.  The
Go method mutates the receiver only at the final append, so the
returned state equals the input on every error path. -/
def ArgsParser.NewStringFlag (p : ArgsParser) (f : StringFlag) : ArgsParser × Option String :=
  if f.Name = "" ∧ f.Short = "" then
    (p, some "Error: at least one identifier must be specified")
  else if ((normalizeNArgs f).Vars.length : Int) < (normalizeNArgs f).NArgs then
    insertStringFlag p
      { normalizeNArgs f with
        Vars := (normalizeNArgs f).Vars ++
          List.replicate ((normalizeNArgs f).NArgs.toNat - (normalizeNArgs f).Vars.length)
            "value" }
  else if ((normalizeNArgs f).Vars.length : Int) > (normalizeNArgs f).NArgs then
    (p, some ("Error: too many value names specified (expected "
      ++ toString (normalizeNArgs f).NArgs
      ++ ", got " ++ toString ((normalizeNArgs f).Vars.length : Int) ++ ")"))
  else
    insertStringFlag p (normalizeNArgs f)

/-- `NewBoolFlag` (parser.go). -/
def ArgsParser.NewBoolFlag (p : ArgsParser) (f : BoolFlag) : ArgsParser × Option String :=
  if f.Name = "" ∧ f.Short = "" then
    (p, some "Error: at least one identifier must be specified")
  else
    match checkIdentifiers p.argsList (.bool f) with
    | some e => (p, some e)
    | none => ({ p with argsList := p.argsList ++ [.bool f] }, none)

/-- `NewPositionalArg` (parser.go). -/
def ArgsParser.NewPositionalArg (p : ArgsParser) (a : PositionalArg) : ArgsParser × Option String :=
  if a.Name = "" then
    (p, some "Error: unspecified argument name")
  else
    match checkIdentifiers p.argsList (.pos a) with
    | some e => (p, some e)
    | none => ({ p with argsList := p.argsList ++ [.pos a] }, none)

/-- A `Command`'s own state (command.go): its name, help text and
nested argument collection (again without the help-generator function
field).  As an argument of its parent it is embedded by
`Argument.cmd`. -/
structure Command where
  name : String
  Help : String
  argsList : List Argument

/-- `CommandParams` (command.go). -/
structure CommandParams where
  Name : String := ""
  Help : String := ""

/-- The tail of `Command.NewStringFlag` shared by its two fall-through
paths. -/
def cmdInsertStringFlag (c : Command) (f : StringFlag) : Command × Option String :=
  match checkIdentifiers c.argsList (.str f) with
  | some e => (c, some e)
  | none => ({ c with argsList := c.argsList ++ [.str f] }, none)

/-- `Command.NewStringFlag` (command.go): textually the same checks as
the parser-level entry point, but against the command's own
collection only. -/
def Command.NewStringFlag (c : Command) (f : StringFlag) : Command × Option String :=
  if f.Name = "" ∧ f.Short = "" then
    (c, some "Error: at least one identifier must be specified")
  else if ((normalizeNArgs f).Vars.length : Int) < (normalizeNArgs f).NArgs then
    cmdInsertStringFlag c
      { normalizeNArgs f with
        Vars := (normalizeNArgs f).Vars ++
          List.replicate ((normalizeNArgs f).NArgs.toNat - (normalizeNArgs f).Vars.length)
            "value" }
  else if ((normalizeNArgs f).Vars.length : Int) > (normalizeNArgs f).NArgs then
    (c, some ("Error: too many value names specified (expected "
      ++ toString (normalizeNArgs f).NArgs
      ++ ", got " ++ toString ((normalizeNArgs f).Vars.length : Int) ++ ")"))
  else
    cmdInsertStringFlag c (normalizeNArgs f)

/-- `Command.NewBoolFlag` (command.go). -/
def Command.NewBoolFlag (c : Command) (f : BoolFlag) : Command × Option String :=
  if f.Name = "" ∧ f.Short = "" then
    (c, some "Error: at least one identifier must be specified")
  else
    match checkIdentifiers c.argsList (.bool f) with
    | some e => (c, some e)
    | none => ({ c with argsList := c.argsList ++ [.bool f] }, none)

/-- `Command.NewPositionalArg` (command.go). -/
def Command.NewPositionalArg (c : Command) (a : PositionalArg) : Command × Option String :=
  if a.Name = "" then
    (c, some "Error: unspecified argument name")
  else
    match checkIdentifiers c.argsList (.pos a) with
    | some e => (c, some e)
    | none => ({ c with argsList := c.argsList ++ [.pos a] }, none)

/-- `Command.NewSubcommand` (command.go): builds the subcommand with
its implicit `HelpFlag`, validates it as an argument of the parent's
collection, and appends it on success.  Returns the parent state after
the call, the created subcommand (on success), and the returned
error. -/
def Command.NewSubcommand (c : Command) (param : CommandParams) :
    Command × Option Command × Option String :=
  if param.Name = "" then
    (c, none, some "Error: unspecified subcommand name")
  else
    let sc : Command :=
      { name := param.Name, Help := param.Help,
        argsList := [.help "shows command help and exits"] }
    match checkIdentifiers c.argsList (.cmd sc.name sc.Help sc.argsList) with
    | some e => (c, none, some e)
    | none =>
        ({ c with argsList := c.argsList ++ [.cmd sc.name sc.Help sc.argsList] },
          some sc, none)

/-- The representation table `reprMap` built at the top of `Parse`
(parser.go): every argument that is not a positional contributes all
its representations; a later binding of the same token overwrites an
earlier one, as in a Go map. -/
def reprPairs (l : List Argument) : List (String × Argument) :=
  l.foldl
    (fun acc a =>
      if a.getOrder ≤ orderPositionalOpt then acc
      else acc ++ a.Represent.map (fun r => (r, a)))
    []

/-- Go-map lookup in `reprMap`: the last binding of the token wins. -/
def reprLookup (l : List Argument) (tok : String) : Option Argument :=
  (reprPairs l).reverse.lookup tok

/-- The positional slots collected at the top of `Parse` (parser.go):
the arguments of rank `orderPositionalReq`/`orderPositionalOpt`, in
list order.  `Parse` assigns unmatched tokens to them
first-to-last (`posArgs`/`nPosArg` bookkeeping). -/
def positionalsOf (l : List Argument) : List PositionalArg :=
  l.filterMap (fun a =>
    match a with
    | .pos p => some p
    | _ => none)

/-- The observable outcome of `ArgsParser.Parse` (parser.go):

* `ok m` — the `(argsMap, nil)` return;
* `errRes msg` — a `(nil, fmt.Errorf(msg))` return (no partial map is
  returned);
* `printsHelpAndExits` — the help branch, which calls `p.PrintHelp()`
  (console output) and `os.Exit(0)` (process termination) instead of
  returning;
* `panicked` — the `make([]string, n)` panic a `StringFlag` with
  negative `NArgs` would trigger (unreachable for flags registered
  through `NewStringFlag`, which normalizes `NArgs`). -/
inductive ParseOutcome where
  | ok : AMap → ParseOutcome
  | errRes : String → ParseOutcome
  | printsHelpAndExits : ParseOutcome
  | panicked : ParseOutcome

/-- The required-positional check after the scan (parser.go): of the
slots never assigned, in declared order, the first one marked required
is reported missing; with none required the accumulated map is
returned. -/
def scanFinish (m : AMap) (pending : List PositionalArg) : ParseOutcome :=
  match pending.find? (fun parg => parg.Required) with
  | some parg =>
      .errRes ("Error: missing required positional argument '" ++ parg.Name ++ "'")
  | none => .ok m

/-- One iteration of the token loop of `Parse` (parser.go), on the
token at the loop index with `rest` the tokens after it:

* a token bound in `reprMap` dispatches on the argument's rank —
  `StringFlag` (guard `i+flag.NArgs >= n`, i.e. fewer than `NArgs`
  tokens remain, then blind consumption of the next `NArgs` tokens
  verbatim), `BoolFlag` (store `true`), `HelpFlag` (print help and
  exit); any other rank (`ListFlag`, `Command`) matches none of the
  `if`/`else if` branches, so the token is silently skipped and
  nothing is stored;
* an unbound token is a positional value: with no slot left the
  unrecognized-argument error aborts, otherwise it fills the next
  slot.

`.inl` is a loop exit with the final outcome; `.inr` carries the
tokens, slots and map the next iteration runs on. -/
def scanStep (l : List Argument) (tok : String) (rest : List String)
    (pending : List PositionalArg) (m : AMap) :
    ParseOutcome ⊕ (List String × List PositionalArg × AMap) :=
  match reprLookup l tok with
  | some (.str f) =>
      if (rest.length : Int) < f.NArgs then
        .inl (.errRes "Error: incorrect arguments usage")
      else if f.NArgs < 0 then .inl .panicked
      else
        .inr (rest.drop f.NArgs.toNat, pending,
          mapInsert m (Argument.GetID (.str f)) (.vstrs (rest.take f.NArgs.toNat)))
  | some (.bool f) =>
      .inr (rest, pending, mapInsert m (Argument.GetID (.bool f)) (.vbool true))
  | some (.help _) => .inl .printsHelpAndExits
  | some _ => .inr (rest, pending, m)
  | none =>
      match pending with
      | [] => .inl (.errRes ("Error: unrecognized argument '" ++ tok ++ "'"))
      | parg :: ps =>
          .inr (rest, ps, mapInsert m (Argument.GetID (.pos parg)) (.vstr tok))

/-- An iteration never lengthens the token list it hands to the next
one (a `StringFlag` drops `NArgs` tokens of `rest`, every other branch
passes `rest` on). -/
theorem scanStep_length (l : List Argument) (tok : String) (rest : List String)
    (pending : List PositionalArg) (m : AMap) (ts : List String)
    (p2 : List PositionalArg) (m2 : AMap)
    (h : scanStep l tok rest pending m = .inr (ts, p2, m2)) :
    ts.length ≤ rest.length := by
  unfold scanStep at h
  repeat' split at h
  all_goals simp_all
  all_goals simp [← h.1, List.length_drop]

/-- The token loop of `Parse` (parser.go): iterate `scanStep` until a
loop exit or the end of the input, then run the required-positional
check. -/
def scanLoop (l : List Argument) (tokens : List String)
    (pending : List PositionalArg) (m : AMap) : ParseOutcome :=
  match tokens with
  | [] => scanFinish m pending
  | tok :: rest =>
      match _hstep : scanStep l tok rest pending m with
      | .inl out => out
      | .inr (ts, p2, m2) => scanLoop l ts p2 m2
termination_by tokens.length
decreasing_by
  have := scanStep_length l tok rest pending m ts p2 m2 _hstep
  simp
  omega

/-- `Parse` (parser.go): sorts the collection, builds the
representation table and the positional slots, and scans `os.Args`
from index 1 (the token list `osArgs` includes the program name at
index 0, which the loop ignores). -/
def ArgsParser.Parse (p : ArgsParser) (osArgs : List String) : ParseOutcome :=
  let sorted := SortArgsList p.argsList
  scanLoop sorted (osArgs.drop 1) (positionalsOf sorted) ([] : AMap)

/-- Unfolding `scanLoop` on an exhausted input. -/
theorem scanLoop_nil (l : List Argument) (pending : List PositionalArg) (m : AMap) :
    scanLoop l [] pending m = scanFinish m pending := by
  rw [scanLoop]

/-- Unfolding `scanLoop` on an iteration that exits the loop. -/
theorem scanLoop_halt (l : List Argument) (tok : String) (rest : List String)
    (pending : List PositionalArg) (m : AMap) (out : ParseOutcome)
    (h : scanStep l tok rest pending m = .inl out) :
    scanLoop l (tok :: rest) pending m = out := by
  rw [scanLoop, h]

/-- Unfolding `scanLoop` on an iteration that continues the loop. -/
theorem scanLoop_go (l : List Argument) (tok : String) (rest : List String)
    (pending : List PositionalArg) (m : AMap) (ts : List String)
    (p2 : List PositionalArg) (m2 : AMap)
    (h : scanStep l tok rest pending m = .inr (ts, p2, m2)) :
    scanLoop l (tok :: rest) pending m = scanLoop l ts p2 m2 := by
  rw [scanLoop, h]

/-- A structurally recursive evaluator for `scanLoop`, used only to
compute concrete runs by `rfl`: the fuel bounds the number of
iterations, and `scanLoopFuel_eq` shows fuel `tokens.length` — an
iteration consumes at least one token — makes it agree with
`scanLoop` everywhere.  The fuel-exhausted branch is unreachable under
that bound. -/
def scanLoopFuel : Nat → List Argument → List String → List PositionalArg → AMap →
    ParseOutcome
  | _, _, [], pending, m => scanFinish m pending
  | 0, _, _ :: _, _, _ => .panicked
  | fuel + 1, l, tok :: rest, pending, m =>
      match scanStep l tok rest pending m with
      | .inl out => out
      | .inr (ts, p2, m2) => scanLoopFuel fuel l ts p2 m2

/-- `scanLoopFuel` agrees with `scanLoop` whenever the fuel covers the
token count. -/
theorem scanLoopFuel_eq_of_le (fuel : Nat) :
    ∀ (l : List Argument) (tokens : List String) (pending : List PositionalArg)
      (m : AMap), tokens.length ≤ fuel →
      scanLoopFuel fuel l tokens pending m = scanLoop l tokens pending m := by
  induction fuel with
  | zero =>
    intro l tokens pending m h
    match tokens with
    | [] => rw [scanLoop]; rfl
    | t :: rest => simp at h
  | succ fuel ih =>
    intro l tokens pending m h
    match tokens with
    | [] => rw [scanLoop]; rfl
    | tok :: rest =>
      rw [scanLoop]
      cases hs : scanStep l tok rest pending m with
      | inl out => simp [scanLoopFuel, hs]
      | inr next =>
        obtain ⟨ts, p2, m2⟩ := next
        have hlen : ts.length ≤ rest.length :=
          scanStep_length l tok rest pending m ts p2 m2 hs
        simp only [scanLoopFuel, hs]
        exact ih l ts p2 m2 (by simp at h; omega)

/-- `scanLoop` evaluated through its fuelled form. -/
theorem scanLoop_eq_fuel (l : List Argument) (tokens : List String)
    (pending : List PositionalArg) (m : AMap) :
    scanLoop l tokens pending m = scanLoopFuel tokens.length l tokens pending m :=
  (scanLoopFuel_eq_of_le tokens.length l tokens pending m (Nat.le_refl _)).symm

/-- `Parse` evaluated through the fuelled loop: with this rewrite a
concrete parse reduces by `rfl`. -/
theorem Parse_eval (p : ArgsParser) (osArgs : List String) :
    p.Parse osArgs =
      scanLoopFuel (osArgs.drop 1).length (SortArgsList p.argsList) (osArgs.drop 1)
        (positionalsOf (SortArgsList p.argsList)) ([] : AMap) := by
  unfold ArgsParser.Parse
  exact scanLoop_eq_fuel ..

/-! ### Concrete fixtures

Parsers built through the registration entry points, as the
repository's own tests build them. -/

/-- A fresh parser, holding only the implicit help flag. -/
def parserBase : ArgsParser := NewArgsParser "argmap" "demo"

/-- The string flag of the repository's tests: `--hello` / `-hi`, one
value. -/
def helloFlag : StringFlag :=
  { Name := "hello", Short := "hi", NArgs := 1, Vars := ["name"], Help := "greets you" }

/-- A parser with `helloFlag` registered. -/
def parserHello : ArgsParser := (parserBase.NewStringFlag helloFlag).1

/-- Six arguments registered in order: two optional positionals
(`alpha_opt` before `beta_opt`), three bool flags, one required
positional. -/
def parserC2base : ArgsParser :=
  ((((((parserBase.NewPositionalArg { Name := "alpha_opt" }).1.NewPositionalArg
    { Name := "beta_opt" }).1.NewBoolFlag { Name := "b1" }).1.NewBoolFlag
    { Name := "b2" }).1.NewBoolFlag { Name := "b3" }).1.NewPositionalArg
    { Name := "first_req", Required := true }).1

/-- `parserC2base` after one `SortArgsList` (as a first `Parse` call
performs) and one further registration — a second required
positional.  Its collection now holds eight arguments. -/
def parserC2 : ArgsParser :=
  ({ parserC2base with argsList := SortArgsList parserC2base.argsList }.NewPositionalArg
    { Name := "delta_req", Required := true }).1

/-- The list flag of the repository's tests. -/
def listFlagFixture : ListFlag :=
  { Name := "list", Short := "l", Var := "item", Help := "give me stuff" }

/-- A parser whose collection holds a `ListFlag` and a `BoolFlag`.
This revision of parser.go has no `NewListFlag` entry point (the
repository's tests call one), so the collection is built directly;
`checkIdentifiers` would accept both insertions. -/
def parserWithList : ArgsParser :=
  { parserBase with
    argsList := parserBase.argsList ++
      [.list listFlagFixture, .bool { Name := "test", Short := "t", Help := "just trying" }] }

/-- A parser with a one-value string flag `-a` and a bool flag `-b`:
the value consumed by `-a` can itself be the registered token
`-b`. -/
def parserBlind : ArgsParser :=
  ((parserBase.NewStringFlag { Short := "a", NArgs := 1, Vars := ["v"] }).1.NewBoolFlag
    { Short := "b" }).1

/-- A parser with two required positionals, registered `first_pos`
then `second_pos`. -/
def parserTwoRequired : ArgsParser :=
  ((parserBase.NewPositionalArg { Name := "first_pos", Required := true }).1.NewPositionalArg
    { Name := "second_pos", Required := true }).1

/-- A command whose own collection already uses the identifier
`hello` and the representations `-hi`/`--hello` — the parent scope for
`commandFreshSub`. -/
def commandParent : Command :=
  { name := "root", Help := "",
    argsList := [.help "shows command help and exits", .str helloFlag] }

/-- The subcommand `run` created inside `commandParent` by
`NewSubcommand`: its own collection holds only its implicit help
flag. -/
def commandFreshSub : Command :=
  ((commandParent.NewSubcommand { Name := "run" }).2.1).getD
    { name := "", Help := "", argsList := [] }

/-! ### The claims -/

/-- Claim C1 (amended): when the token scan reaches a token bound to
the help flag, `Parse` stops processing further tokens immediately —
but instead of returning a help sentinel it prints the help message
and terminates the process (`p.PrintHelp()`; `os.Exit(0)`,
parser.go), embedded as the terminal outcome
`ParseOutcome.printsHelpAndExits`.  No result and no error are
returned. -/
theorem claim_C1_help_prints_and_exits (l : List Argument) (tok : String)
    (rest : List String) (pending : List PositionalArg) (m : AMap) (s : String)
    (h : reprLookup l tok = some (.help s)) :
    scanLoop l (tok :: rest) pending m = .printsHelpAndExits := by
  apply scanLoop_halt
  unfold scanStep
  rw [h]

/-- Claim C1, witness: a parser holding only `helloFlag` and the
implicit help flag, on `-h` followed by further tokens, exits through
the help branch without scanning them. -/
theorem claim_C1_witness :
    scanLoop (SortArgsList parserHello.argsList) ("-h" :: ["later", "tokens"])
      (positionalsOf (SortArgsList parserHello.argsList)) ([] : AMap) =
      .printsHelpAndExits :=
  claim_C1_help_prints_and_exits _ _ _ _ _ "shows help message and exits" (by rfl)

/-- Claim C1, counterexample to the claim as stated: on `--help` the
`Parse` of parser.go does not return a sentinel result — it reaches
the branch at parser.go:147-150 that prints the help text to the
console and terminates the process (`os.Exit(0)`), embedded as
`ParseOutcome.printsHelpAndExits`, which is neither a result mapping
nor an error return. -/
theorem claim_C1_counterexample :
    parserHello.Parse ["argmap", "--help", "leftover"] = .printsHelpAndExits
      ∧ (∀ m : AMap, ParseOutcome.printsHelpAndExits ≠ ParseOutcome.ok m)
      ∧ (∀ e : String, ParseOutcome.printsHelpAndExits ≠ ParseOutcome.errRes e) :=
  ⟨by rw [Parse_eval]; rfl, fun m h => ParseOutcome.noConfusion h,
    fun e h => ParseOutcome.noConfusion h⟩

/-- Claim C2: `SortArgsList` delegates to Go's `sort.Slice`, which is
documented as not stable, and under Go ≤ 1.18 its gap-6 ShellSort
pass does reorder equal ranks.  Concretely: `parserC2`'s collection
holds, in insertion order, the optional positionals `alpha_opt`
before `beta_opt` (together with two required positionals, three bool
flags and the help flag, eight arguments in all); sorting it yields
`beta_opt` before `alpha_opt` — the gap-6 pass hops `delta_req` over
`alpha_opt` and the subsequent (stable) insertion sort keeps the
inverted tie.  Both positional slots are optional and of equal rank,
so positional slot assignment now differs from declared order,
violating the stability and tie-break law the specification
requires. -/
theorem claim_C2_sort_reorders_ties :
    parserC2.argsList =
      [.pos { Name := "first_req", Required := true }, .pos { Name := "alpha_opt" },
        .pos { Name := "beta_opt" }, .bool { Name := "b1" }, .bool { Name := "b2" },
        .bool { Name := "b3" }, .help "shows help message and exits",
        .pos { Name := "delta_req", Required := true }]
      ∧ SortArgsList parserC2.argsList =
      [.pos { Name := "first_req", Required := true },
        .pos { Name := "delta_req", Required := true }, .pos { Name := "beta_opt" },
        .pos { Name := "alpha_opt" }, .bool { Name := "b1" }, .bool { Name := "b2" },
        .bool { Name := "b3" }, .help "shows help message and exits"] :=
  ⟨rfl, rfl⟩

/-- Claim C3: the `Parse` of parser.go predates `ListFlag` — a token
bound to a list flag matches none of the dispatch branches and is
silently skipped, so no entry is stored under the flag's id and its
would-be values are treated as positionals.  With no positional slot
registered, `--list a b` fails with the unrecognized-argument error
on `a` (the repository's own tests and README expect
`list -> [a, b]`), and `-t --list` yields a mapping without any
`list` key (the tests expect `list -> []`). -/
theorem claim_C3_listflag_dropped :
    parserWithList.Parse ["argmap", "--list", "a", "b"] =
        .errRes "Error: unrecognized argument 'a'"
      ∧ parserWithList.Parse ["argmap", "-t", "--list"] = .ok [("test", .vbool true)] :=
  ⟨by rw [Parse_eval]; rfl, by rw [Parse_eval]; rfl⟩

/-- Claim C4 (amended): when the scan dispatches a `StringFlag` with
fewer than `NArgs` tokens remaining, `Parse` aborts with the fixed
incorrect-arguments-usage error — whose message does not name the
flag's matched representation — and returns no partial result (the
error return carries no mapping); with at least `NArgs` tokens
remaining the scan consumes them and continues, raising no such error
at this match. -/
theorem claim_C4_amended (l : List Argument) (tok : String) (rest : List String)
    (pending : List PositionalArg) (m : AMap) (f : StringFlag)
    (h : reprLookup l tok = some (.str f)) (hpos : 1 ≤ f.NArgs) :
    ((rest.length : Int) < f.NArgs →
        scanLoop l (tok :: rest) pending m = .errRes "Error: incorrect arguments usage")
      ∧ (f.NArgs ≤ (rest.length : Int) →
        scanLoop l (tok :: rest) pending m =
          scanLoop l (rest.drop f.NArgs.toNat) pending
            (mapInsert m (Argument.GetID (.str f)) (.vstrs (rest.take f.NArgs.toNat)))) := by
  constructor
  · intro hlt
    apply scanLoop_halt
    simp only [scanStep, h]
    rw [if_pos hlt]
  · intro hge
    apply scanLoop_go
    simp only [scanStep, h]
    rw [if_neg (by omega), if_neg (by omega)]

/-- Claim C4, witness: `--hello` with no following token aborts with
the usage error. -/
theorem claim_C4_witness :
    scanLoop (SortArgsList parserHello.argsList) ["--hello"]
      (positionalsOf (SortArgsList parserHello.argsList)) ([] : AMap) =
      .errRes "Error: incorrect arguments usage" :=
  (claim_C4_amended _ "--hello" [] _ [] helloFlag (by rfl) (by decide)).1 (by decide)

/-- Claim C4, counterexample to the claim as stated: the error raised
for `--hello` with no value is the fixed string
`Error: incorrect arguments usage`, and the matched representation
`--hello` does not occur in it — the error does not name the flag. -/
theorem claim_C4_counterexample :
    parserHello.Parse ["argmap", "--hello"] = .errRes "Error: incorrect arguments usage"
      ∧ ¬ List.IsInfix "--hello".toList "Error: incorrect arguments usage".toList :=
  ⟨by rw [Parse_eval]; rfl, by decide⟩

/-- Claim C5: a dispatched `StringFlag` of arity `k` (with `k` tokens
available) consumes exactly the `k` following tokens verbatim and
unconditionally — the values `vs` are arbitrary, in particular they
may themselves be registered representations — stores them under the
flag's id, and resumes the scan right after them. -/
theorem claim_C5_roundtrip (l : List Argument) (R : String) (vs rest : List String)
    (pending : List PositionalArg) (m : AMap) (f : StringFlag)
    (h : reprLookup l R = some (.str f)) (hk : f.NArgs = (vs.length : Int))
    (hpos : 1 ≤ f.NArgs) :
    scanLoop l (R :: (vs ++ rest)) pending m =
      scanLoop l rest pending (mapInsert m (Argument.GetID (.str f)) (.vstrs vs)) := by
  apply scanLoop_go
  simp only [scanStep, h]
  rw [if_neg (by simp [List.length_append]; omega), if_neg (by omega)]
  rw [hk]
  simp [List.take_left, List.drop_left]

/-- Claim C5, witness: the one-value flag `-a` blindly consumes the
token `-b`, itself the representation of a registered bool flag, and
the result maps `a` to `[-b]`. -/
theorem claim_C5_witness :
    parserBlind.Parse ["argmap", "-a", "-b"] = .ok [("a", .vstrs ["-b"])] := by
  show scanLoop (SortArgsList parserBlind.argsList) ("-a" :: (["-b"] ++ []))
    (positionalsOf (SortArgsList parserBlind.argsList)) ([] : AMap) = _
  rw [claim_C5_roundtrip _ _ _ _ _ _ { Short := "a", NArgs := 1, Vars := ["v"] }
    (by rfl) (by decide) (by decide)]
  rw [scanLoop_nil]
  rfl

/-- Claim C6: after the scan, the positional slots never assigned are
checked in declared order and the first one marked required is
reported missing by name; with no required slot unassigned the
accumulated mapping is returned.  In particular, with two required
positionals and a single input token the error names the second —
the actually missing — positional. -/
theorem claim_C6_missing_required :
    (∀ (m : AMap) (pending : List PositionalArg) (parg : PositionalArg),
        pending.find? (fun q => q.Required) = some parg →
        scanFinish m pending =
          .errRes ("Error: missing required positional argument '" ++ parg.Name ++ "'"))
      ∧ (∀ (m : AMap) (pending : List PositionalArg),
        pending.find? (fun q => q.Required) = none → scanFinish m pending = .ok m)
      ∧ parserTwoRequired.Parse ["argmap", "only_token"] =
          .errRes "Error: missing required positional argument 'second_pos'" := by
  refine ⟨?_, ?_, ?_⟩
  · intro m pending parg h
    unfold scanFinish
    rw [h]
  · intro m pending h
    unfold scanFinish
    rw [h]
  · rw [Parse_eval]; rfl

/-- Claim C6, witness: a required slot left unassigned is reported by
name; unassigned optional slots raise nothing. -/
theorem claim_C6_witness :
    scanFinish ([] : AMap) [{ Name := "needed", Required := true }, { Name := "extra" }] =
        .errRes "Error: missing required positional argument 'needed'"
      ∧ scanFinish [("k", .vstr "v")] [{ Name := "opt_only" }] = .ok [("k", .vstr "v")] := by
  constructor
  · rw [claim_C6_missing_required.1 ([] : AMap)
      [{ Name := "needed", Required := true }, { Name := "extra" }]
      { Name := "needed", Required := true } (by rfl)]
    rfl
  · rw [claim_C6_missing_required.2.1 [("k", .vstr "v")] [{ Name := "opt_only" }] (by rfl)]

/-- Claim C7: `checkIdentifiers` succeeds exactly when the candidate's
id differs from every existing argument's id and none of its
representations is already used (it is a pure read — its Go signature
only returns an error, never touching the collection); a duplicate id
(with no representation clash) yields the duplicate-identifier error
naming the id, and a representation clash (with no duplicate id)
yields the duplicate-representation error naming one of the
candidate's clashing representations.  The check is scoped to the one
collection registered into: `commandFreshSub`, whose parent scope
already uses `hello`/`-hi`/`--hello`, accepts `helloFlag` into its
own collection. -/
theorem claim_C7_check_identifiers :
    (∀ (existing : List Argument) (b : Argument),
        checkIdentifiers existing b = none ↔
          ∀ a ∈ existing, a.GetID ≠ b.GetID ∧
            ∀ r ∈ b.Represent, contains a.Represent r = false)
      ∧ (∀ (existing : List Argument) (b : Argument),
        (∃ a ∈ existing, a.GetID = b.GetID) →
        (∀ a ∈ existing, ∀ r ∈ b.Represent, contains a.Represent r = false) →
        checkIdentifiers existing b =
          some ("Error: identifier '" ++ b.GetID ++ "' already exists"))
      ∧ (∀ (existing : List Argument) (b : Argument),
        (∀ a ∈ existing, a.GetID ≠ b.GetID) →
        (∃ a ∈ existing, ∃ r ∈ b.Represent, contains a.Represent r = true) →
        ∃ r ∈ b.Represent, checkIdentifiers existing b =
          some ("Error: representation '" ++ r ++ "' already exists"))
      ∧ ((commandFreshSub.NewStringFlag helloFlag).2 = none
        ∧ (commandFreshSub.NewStringFlag helloFlag).1.argsList =
            commandFreshSub.argsList ++ [.str helloFlag]) := by
  refine ⟨?_, ?_, ?_, by constructor <;> rfl⟩
  · intro existing b
    induction existing with
    | nil => simp [checkIdentifiers]
    | cons a rest ih =>
      simp only [checkIdentifiers]
      by_cases hid : a.GetID = b.GetID
      · rw [if_pos hid]
        simp only [List.forall_mem_cons]
        constructor
        · intro hc
          exact absurd hc (Option.some_ne_none _)
        · intro hall
          exact absurd hid hall.1.1
      · rw [if_neg hid]
        cases hfind : b.Represent.find? (fun r => contains a.Represent r) with
        | some r =>
          simp only [hfind]
          constructor
          · intro hc
            exact absurd hc (Option.some_ne_none _)
          · intro hall
            have hr := List.find?_some hfind
            have hm := List.mem_of_find?_eq_some hfind
            have := (hall a (List.mem_cons_self a rest)).2 r hm
            rw [this] at hr
            cases hr
        | none =>
          simp only [hfind, ih, List.forall_mem_cons]
          have hhead : ∀ r ∈ b.Represent, contains a.Represent r = false := by
            intro r hr
            have := List.find?_eq_none.mp hfind r hr
            simpa using this
          constructor
          · intro htail
            exact ⟨⟨hid, hhead⟩, htail⟩
          · intro hall
            exact hall.2
  · intro existing b
    induction existing with
    | nil =>
      intro hex _
      simp at hex
    | cons a rest ih =>
      intro hex hnone
      simp only [checkIdentifiers]
      by_cases hid : a.GetID = b.GetID
      · rw [if_pos hid]
      · rw [if_neg hid]
        have hfind : b.Represent.find? (fun r => contains a.Represent r) = none := by
          apply List.find?_eq_none.mpr
          intro r hr
          simp [hnone a (List.mem_cons_self a rest) r hr]
        simp only [hfind]
        apply ih
        · obtain ⟨x, hx, hxe⟩ := hex
          rcases List.mem_cons.mp hx with h1 | h2
          · exact absurd (h1 ▸ hxe) hid
          · exact ⟨x, h2, hxe⟩
        · intro x hx r hr
          exact hnone x (List.mem_cons_of_mem _ hx) r hr
  · intro existing b
    induction existing with
    | nil =>
      intro _ hex
      simp at hex
    | cons a rest ih =>
      intro hid hex
      simp only [checkIdentifiers]
      rw [if_neg (hid a (List.mem_cons_self a rest))]
      cases hfind : b.Represent.find? (fun r => contains a.Represent r) with
      | some r =>
        refine ⟨r, List.mem_of_find?_eq_some hfind, ?_⟩
        simp only [hfind]
      | none =>
        simp only [hfind]
        apply ih
        · intro x hx
          exact hid x (List.mem_cons_of_mem _ hx)
        · obtain ⟨x, hx, r, hr, hc⟩ := hex
          rcases List.mem_cons.mp hx with h1 | h2
          · subst h1
            have := List.find?_eq_none.mp hfind r hr
            simp [hc] at this
          · exact ⟨x, h2, r, hr, hc⟩

/-- Claim C7, witness: the duplicate-identifier rejection of the
repository's own test (`Short: "hi"` then `Name: "hi"`), and a
registration with fresh id and representations accepted. -/
theorem claim_C7_witness :
    checkIdentifiers [.str { Short := "hi" }] (.str { Name := "hi" }) =
        some "Error: identifier 'hi' already exists"
      ∧ checkIdentifiers [.str { Short := "hi" }] (.bool { Name := "other", Short := "o" }) =
        none := by
  constructor
  · rw [claim_C7_check_identifiers.2.1 [.str { Short := "hi" }] (.str { Name := "hi" })
      ⟨.str { Short := "hi" }, List.mem_cons_self _ _, by rfl⟩ (by decide)]
    rfl
  · exact (claim_C7_check_identifiers.1 _ _).mpr (by decide)

/-- Claim C8: every registration entry point is atomic — on every
call it either hands back the collection state it received
(`.1 = state`, which is what each Go early-return leaves behind, the
candidate never stored) or reports no error at all; equivalently,
whenever an error is returned the collection is unchanged. -/
theorem claim_C8_registration_atomic :
    (∀ (p : ArgsParser) (f : StringFlag),
        (p.NewStringFlag f).1 = p ∨ (p.NewStringFlag f).2 = none)
      ∧ (∀ (p : ArgsParser) (f : BoolFlag),
        (p.NewBoolFlag f).1 = p ∨ (p.NewBoolFlag f).2 = none)
      ∧ (∀ (p : ArgsParser) (a : PositionalArg),
        (p.NewPositionalArg a).1 = p ∨ (p.NewPositionalArg a).2 = none)
      ∧ (∀ (c : Command) (f : StringFlag),
        (c.NewStringFlag f).1 = c ∨ (c.NewStringFlag f).2 = none)
      ∧ (∀ (c : Command) (f : BoolFlag),
        (c.NewBoolFlag f).1 = c ∨ (c.NewBoolFlag f).2 = none)
      ∧ (∀ (c : Command) (a : PositionalArg),
        (c.NewPositionalArg a).1 = c ∨ (c.NewPositionalArg a).2 = none)
      ∧ (∀ (c : Command) (param : CommandParams),
        (c.NewSubcommand param).1 = c ∨ (c.NewSubcommand param).2.2 = none) := by
  refine ⟨?_, ?_, ?_, ?_, ?_, ?_, ?_⟩
  · intro p f
    simp only [ArgsParser.NewStringFlag, insertStringFlag]
    repeat' split
    all_goals simp
  · intro p f
    simp only [ArgsParser.NewBoolFlag]
    repeat' split
    all_goals simp
  · intro p a
    simp only [ArgsParser.NewPositionalArg]
    repeat' split
    all_goals simp
  · intro c f
    simp only [Command.NewStringFlag, cmdInsertStringFlag]
    repeat' split
    all_goals simp
  · intro c f
    simp only [Command.NewBoolFlag]
    repeat' split
    all_goals simp
  · intro c a
    simp only [Command.NewPositionalArg]
    repeat' split
    all_goals simp
  · intro c param
    simp only [Command.NewSubcommand]
    repeat' split
    all_goals simp

/-- Claim C9: `NewStringFlag` normalizes and validates arity and
value labels — an `NArgs` below 1 behaves exactly as `NArgs = 1`;
with at most `NArgs` labels supplied, the labels are padded with the
placeholder `"value"` up to exactly `NArgs` and registration proceeds
to the identifier check and append (`insertStringFlag`); with more
labels than `NArgs`, it fails with the too-many-value-names error. -/
theorem claim_C9_stringflag_normalization (p : ArgsParser) (f : StringFlag)
    (hname : ¬(f.Name = "" ∧ f.Short = "")) :
    (f.NArgs < 1 → p.NewStringFlag f = p.NewStringFlag { f with NArgs := 1 })
      ∧ (1 ≤ f.NArgs → (f.Vars.length : Int) ≤ f.NArgs →
        p.NewStringFlag f =
          insertStringFlag p
            { f with Vars := f.Vars ++ List.replicate (f.NArgs.toNat - f.Vars.length) "value" }
        ∧ ((f.Vars ++ List.replicate (f.NArgs.toNat - f.Vars.length) "value").length : Int)
            = f.NArgs)
      ∧ (1 ≤ f.NArgs → f.NArgs < (f.Vars.length : Int) →
        p.NewStringFlag f =
          (p, some ("Error: too many value names specified (expected " ++ toString f.NArgs
            ++ ", got " ++ toString (f.Vars.length : Int) ++ ")"))) := by
  refine ⟨?_, ?_, ?_⟩
  · intro hlt
    have hn : normalizeNArgs { f with NArgs := 1 } = normalizeNArgs f := by
      unfold normalizeNArgs
      rw [if_pos hlt]
      simp
    unfold ArgsParser.NewStringFlag
    rw [hn]
  · intro hpos hle
    have hnf : normalizeNArgs f = f := by
      unfold normalizeNArgs
      rw [if_neg (by omega)]
    constructor
    · unfold ArgsParser.NewStringFlag
      rw [if_neg hname, hnf]
      rcases lt_or_eq_of_le hle with hlt | heq
      · rw [if_pos hlt]
      · rw [if_neg (by omega), if_neg (by omega)]
        have h0 : f.NArgs.toNat - f.Vars.length = 0 := by omega
        rw [h0]
        simp
    · simp only [List.length_append, List.length_replicate]
      omega
  · intro hpos hgt
    have hnf : normalizeNArgs f = f := by
      unfold normalizeNArgs
      rw [if_neg (by omega)]
    unfold ArgsParser.NewStringFlag
    rw [if_neg hname, hnf, if_neg (by omega),
      if_pos (show (f.Vars.length : Int) > f.NArgs by omega)]

/-- Claim C9, witness: an unset arity behaves as arity 1; arity 2
with no labels is padded to `["value", "value"]`; one label over the
(normalized) arity is rejected with the too-many-value-names error —
also for the repository's own test case of an unset arity with two
labels. -/
theorem claim_C9_witness :
    parserBase.NewStringFlag { Short := "hi" } =
        parserBase.NewStringFlag { Short := "hi", NArgs := 1 }
      ∧ parserBase.NewStringFlag { Short := "hi", NArgs := 2 } =
        insertStringFlag parserBase { Short := "hi", NArgs := 2, Vars := ["value", "value"] }
      ∧ parserBase.NewStringFlag { Short := "hi", Vars := ["a", "b"] } =
        (parserBase, some "Error: too many value names specified (expected 1, got 2)") := by
  refine ⟨?_, ?_, ?_⟩
  · exact (claim_C9_stringflag_normalization parserBase { Short := "hi" }
      (by decide)).1 (by decide)
  · have h := ((claim_C9_stringflag_normalization parserBase { Short := "hi", NArgs := 2 }
      (by decide)).2.1 (by decide) (by decide)).1
    rw [h]
    rfl
  · have h1 := (claim_C9_stringflag_normalization parserBase { Short := "hi", Vars := ["a", "b"] }
      (by decide)).1 (by decide)
    have h2 := (claim_C9_stringflag_normalization parserBase
      { Short := "hi", NArgs := 1, Vars := ["a", "b"] } (by decide)).2.2 (by decide) (by decide)
    rw [h1, h2]
    rfl

/-- Claim C10: `GetBool` is total — its Go signature returns only
`bool`, never an error — and returns the stored boolean exactly when
the key is present and holds one; an absent key and a present key
holding a non-boolean value (for example a `StringFlag`'s value list)
both fall through to `false` rather than reporting a shape
mismatch. -/
theorem claim_C10_getbool_total :
    (∀ (m : AMap) (k : String) (b : Bool),
        mapFind m k = some (.vbool b) → GetBool m k = b)
      ∧ (∀ (m : AMap) (k : String), mapFind m k = none → GetBool m k = false)
      ∧ (∀ (m : AMap) (k : String) (v : Value), mapFind m k = some v →
        (∀ b : Bool, v ≠ .vbool b) → GetBool m k = false) := by
  refine ⟨?_, ?_, ?_⟩
  · intro m k b h
    unfold GetBool
    rw [h]
  · intro m k h
    unfold GetBool
    rw [h]
  · intro m k v h hv
    unfold GetBool
    rw [h]
    cases v with
    | vbool b => exact absurd rfl (hv b)
    | vstr s => rfl
    | vstrs l => rfl
    | vmap mm => rfl

/-- Claim C10, witness: a stored `true` is returned; an absent key
and a key holding a string list both yield `false`. -/
theorem claim_C10_witness :
    GetBool [("x", .vbool true)] "x" = true
      ∧ GetBool [] "absent" = false
      ∧ GetBool [("x", .vstrs ["a"])] "x" = false :=
  ⟨claim_C10_getbool_total.1 _ _ _ (by rfl),
    claim_C10_getbool_total.2.1 _ _ (by rfl),
    claim_C10_getbool_total.2.2 _ _ _ (by rfl) (fun b h => Value.noConfusion h)⟩

end Argmap
